import Mathlib

/-!
Shallow embedding of the ask-llama response-transformation pipeline.

Texts are modelled as lists of unicode characters (Python strings are
sequences of code points, as are `List Char` values here).  Each definition
below is translated from the repository source:
  - `src/archive/llama_query.py` : paragraph deduplication, prompt-echo
    trimming, code-block formatting and width-aware wrapping;
  - `src/query-llama.py` : marker stripping, thinking-block handling,
    truncation detection and the token/timing accountant.
Fallible operations (Python code that can raise) return `Except String`.
Recursions that consume a non-structural amount of input use a fuel
argument bounded by the input length (each step consumes at least one
character, so fuel equal to the length is always sufficient); this keeps
every definition executable by the kernel.
-/

abbrev Str := List Char

/-- Characters stripped by Python `str.strip` and used as separators by
`str.split()` (the code points for which Python `str.isspace` is true). -/
def isPySpace (c : Char) : Bool :=
  c = ' ' || c = '\t' || c = '\n' || c = '\r' || c = '\x0b' || c = '\x0c' ||
  c = '\x1c' || c = '\x1d' || c = '\x1e' || c = '\x1f' || c = '\x85' ||
  c.val = 0xa0 || c.val = 0x1680 ||
  (decide (0x2000 <= c.val) && decide (c.val <= 0x200a)) ||
  c.val = 0x2028 || c.val = 0x2029 || c.val = 0x202f || c.val = 0x205f ||
  c.val = 0x3000

/-- Python `str.lstrip()`. -/
def pyLStrip (s : Str) : Str := s.dropWhile isPySpace

/-- Python `str.rstrip()`. -/
def pyRStrip (s : Str) : Str := (s.reverse.dropWhile isPySpace).reverse

/-- Python `str.strip()`. -/
def pyStrip (s : Str) : Str := pyRStrip (pyLStrip s)

/-- Python `text.split(chr(10))`: split on every newline, keeping empty
pieces; the empty text yields one empty piece. -/
def splitNL : Str → List Str
  | [] => [[]]
  | c :: rest =>
    if c = '\n' then [] :: splitNL rest
    else
      match splitNL rest with
      | [] => [[c]]
      | p :: ps => (c :: p) :: ps

/-- Python `sep.join(pieces)`. -/
def joinSep (sep : Str) : List Str → Str
  | [] => []
  | [x] => x
  | x :: y :: rest => x ++ sep ++ joinSep sep (y :: rest)

/-- Python `pat in s` (substring containment; the empty pattern is contained
in every text). -/
def occursIn (pat : Str) : Str → Bool
  | [] => pat.isEmpty
  | c :: rest => pat.isPrefixOf (c :: rest) || occursIn pat rest

/-- Index of the first occurrence of `pat` as a substring of `s`. -/
def findSub (pat : Str) : Str → Option Nat
  | [] => if pat.isEmpty then some 0 else none
  | c :: rest =>
    if pat.isPrefixOf (c :: rest) then some 0
    else (findSub pat rest).map (· + 1)

/-- Prepend a character to the first piece of a split result. -/
def consHead (c : Char) : List Str → List Str
  | [] => [[c]]
  | p :: ps => (c :: p) :: ps

/-- Python `s.split(sep)` for a non-empty separator, with explicit fuel
(one character of `s` is consumed per step, so fuel `s.length` suffices). -/
def pySplitGo (sep : Str) : Nat → Str → List Str
  | _, [] => [[]]
  | 0, s => [s]
  | fuel + 1, c :: rest =>
    if sep.isPrefixOf (c :: rest) then
      [] :: pySplitGo sep fuel ((c :: rest).drop sep.length)
    else
      consHead c (pySplitGo sep fuel rest)

/-- Python `s.split(sep)`: raises `ValueError: empty separator` when the
separator is empty, otherwise splits on each non-overlapping occurrence. -/
def pySplit (sep s : Str) : Except String (List Str) :=
  if sep.isEmpty then .error "ValueError: empty separator"
  else .ok (pySplitGo sep s.length s)

/-- Python `s.replace(pat, repl)` for a non-empty pattern, with explicit
fuel (the source only replaces fixed non-empty sentinel strings). -/
def pyReplaceGo (pat repl : Str) : Nat → Str → Str
  | _, [] => []
  | 0, s => s
  | fuel + 1, c :: rest =>
    if pat.isPrefixOf (c :: rest) then
      repl ++ pyReplaceGo pat repl fuel ((c :: rest).drop pat.length)
    else
      c :: pyReplaceGo pat repl fuel rest

/-- Python `s.replace(pat, repl)` (all non-overlapping occurrences,
scanning left to right). -/
def pyReplace (pat repl s : Str) : Str := pyReplaceGo pat repl s.length s

/-- Python `s.split()`: whitespace-separated words, no empty pieces. -/
def pyWords : Str → List Str
  | [] => []
  | c :: rest =>
    if isPySpace c then pyWords rest
    else
      match pyWords rest with
      | [] => [[c]]
      | w :: ws =>
        match rest with
        | [] => [[c]]
        | d :: _ => if isPySpace d then [c] :: w :: ws else (c :: w) :: ws

-- ### src/archive/llama_query.py ------------------------------------------

/-- Line 39: `MIN_PARAGRAPH_LENGTH = 20`. -/
def MIN_PARAGRAPH_LENGTH : Nat := 20

/-- Lines 20-30: the ANSI color table. -/
def COLORS : List (String × Str) :=
  [("reset", "\x1b[0m".data), ("bold", "\x1b[1m".data),
   ("green", "\x1b[32m".data), ("blue", "\x1b[34m".data),
   ("cyan", "\x1b[36m".data), ("yellow", "\x1b[33m".data),
   ("red", "\x1b[31m".data), ("magenta", "\x1b[35m".data),
   ("dim", "\x1b[2m".data)]

/-- Python `COLORS.get(color, '')`. -/
def colorsGet (color : String) : Str :=
  ((COLORS.find? (fun p => p.1 == color)).map Prod.snd).getD []

/-- Lines 41-43: `color_text(text, color)`. -/
def color_text (text : Str) (color : String) : Str :=
  colorsGet color ++ text ++ "\x1b[0m".data

/-- Lines 52-64 of `detect_and_remove_repetition`: group the lines of the
text into paragraphs (maximal runs of lines with non-blank `strip()`),
carrying the current run in reverse order. -/
def collectParas : List Str → List Str → List Str
  | [], cur =>
    if cur.isEmpty then [] else [joinSep ['\n'] cur.reverse]
  | l :: ls, cur =>
    if (pyStrip l).isEmpty then
      if cur.isEmpty then collectParas ls []
      else joinSep ['\n'] cur.reverse :: collectParas ls []
    else collectParas ls (l :: cur)

/-- The paragraph list of a text, as computed by lines 52-64. -/
def paragraphsOf (text : Str) : List Str := collectParas (splitNL text) []

/-- Lines 70-82: keep every paragraph whose trimmed length is below the
minimum, and the first occurrence of every other paragraph (`seen` models
the Python set of already-kept substantial paragraphs). -/
def dedupParagraphs (minLen : Nat) (seen : List Str) : List Str → List Str
  | [] => []
  | p :: ps =>
    if minLen ≤ (pyStrip p).length then
      if p ∈ seen then dedupParagraphs minLen seen ps
      else p :: dedupParagraphs minLen (p :: seen) ps
    else p :: dedupParagraphs minLen seen ps

/-- Lines 45-88: `detect_and_remove_repetition`, with the
`MIN_PARAGRAPH_LENGTH` constant abstracted as a parameter (the spec states
one scenario with minimum length 5).  The Python comparison
`len(unique_paragraphs) < len(paragraphs) * 0.7` is modelled exactly as
the rational comparison `10 * kept < 7 * original`. -/
def detectAndRemoveRepetitionMin (minLen : Nat) (text : Str) : Str :=
  if text.length < minLen * 2 then text
  else
    let paragraphs := paragraphsOf text
    if paragraphs.length ≤ 1 then text
    else
      let uniq := dedupParagraphs minLen [] paragraphs
      let uniq2 :=
        if 10 * uniq.length < 7 * paragraphs.length then
          uniq ++ [color_text
            ("\n(Note: Repetitive content was removed from the response)".data)
            "dim"]
        else uniq
      joinSep ('\n' :: '\n' :: []) uniq2

/-- Lines 45-88 with the constant from line 39. -/
def detect_and_remove_repetition (text : Str) : Str :=
  detectAndRemoveRepetitionMin MIN_PARAGRAPH_LENGTH text

/-- Lines 90-96: `trim_prompt_repetition`.  `text.split(prompt)` raises for
an empty prompt, so the result is an `Except`. -/
def trim_prompt_repetition (text prompt : Str) : Except String Str :=
  if occursIn prompt text then
    match pySplit prompt text with
    | .error e => .error e
    | .ok parts => .ok (pyStrip (parts.headD []))
  else .ok text

/-- Model of Python `textwrap.wrap`: whitespace-separated words greedily
packed into lines of at most `width` characters; a word longer than the
width is pre-split into width-sized chunks (the stdlib refinements such as
hyphen-aware breaking are not modelled; no claim below depends on the
exact wrapped output, only on which lines are wrapped at all). -/
def chunkEvery (w : Nat) : Nat → Str → List Str
  | _, [] => []
  | 0, s => [s]
  | fuel + 1, s => if s.length ≤ w then [s] else s.take w :: chunkEvery w fuel (s.drop w)

/-- Greedy packing of words into lines (helper of the `textwrap` model). -/
def packWords (width : Nat) : Str → List Str → List Str
  | cur, [] => if cur.isEmpty then [] else [cur]
  | cur, w :: ws =>
    if cur.isEmpty then packWords width w ws
    else if cur.length + 1 + w.length ≤ width then packWords width (cur ++ ' ' :: w) ws
    else cur :: packWords width w ws

/-- Model of Python `textwrap.wrap(line, width)`. -/
def textwrapWrap (width : Nat) (line : Str) : List Str :=
  let words := (pyWords line).flatMap (fun w => chunkEvery (max width 1) w.length w)
  packWords width [] words

/-- Lines 105-125 of `format_code_blocks`: process one line given the
current in-code-block state, returning the new state and emitted lines. -/
def fcbStep (inCB : Bool) (line : Str) : Bool × List Str :=
  if "```".data.isPrefixOf (pyStrip line) then
    let inCB' := !inCB
    let lang_part := pyStrip ((pyStrip line).drop 3)
    if inCB' && !lang_part.isEmpty then
      (inCB', [color_text ("┌─ Code (".data ++ lang_part ++ ") ".data) "yellow",
               color_text "│".data "yellow"])
    else if inCB' then
      (inCB', [color_text "┌─ Code ".data "yellow", color_text "│".data "yellow"])
    else
      (inCB', [color_text "│".data "yellow", color_text "└─────────".data "yellow"])
  else if inCB then
    (inCB, [color_text "│ ".data "yellow" ++ color_text line "cyan"])
  else (inCB, [line])

/-- The line loop of `format_code_blocks`. -/
def fcbGo : Bool → List Str → List Str
  | _, [] => []
  | cb, l :: ls => (fcbStep cb l).2 ++ fcbGo (fcbStep cb l).1 ls

/-- Lines 98-127: `format_code_blocks`. -/
def format_code_blocks (text : Str) : Str :=
  joinSep ['\n'] (fcbGo false (splitNL text))

/-- Lines 135-148 of `wrap_text`: process one line given the current
in-code-block state, returning the new state and the emitted lines. -/
def wrapStep (width : Nat) (inCB : Bool) (line : Str) : Bool × List Str :=
  if "```".data.isPrefixOf line then (!inCB, [line])
  else if inCB || "│ ".data.isPrefixOf line then (inCB, [line])
  else if (pyStrip line).isEmpty then (inCB, [line])
  else (inCB, let w := textwrapWrap width line; if w.isEmpty then [[]] else w)

/-- The line loop of `wrap_text` instrumented with, for every input line,
the fence state on entry and the lines emitted for it. -/
def wrapTrace (width : Nat) : Bool → List Str → List (Str × Bool × List Str)
  | _, [] => []
  | cb, l :: ls =>
    (l, cb, (wrapStep width cb l).2) :: wrapTrace width (wrapStep width cb l).1 ls

/-- The line loop of `wrap_text`. -/
def wrapLinesGo (width : Nat) : Bool → List Str → List Str
  | _, [] => []
  | cb, l :: ls => (wrapStep width cb l).2 ++ wrapLinesGo width (wrapStep width cb l).1 ls

/-- Lines 129-150: `wrap_text`. -/
def wrap_text (text : Str) (width : Nat) : Str :=
  joinSep ['\n'] (wrapLinesGo width false (splitNL text))

-- ### src/query-llama.py ---------------------------------------------------

/-- Line 11: the model context bound (unused by the claims). -/
def MAX_CONTEXT_LENGTH : Nat := 32768

/-- Lines 111-120: `count_tokens_in_text`.  The Python expression
`int(len(words) * 1.3)` is modelled exactly as `(13 * n) / 10` with
truncating natural division. -/
def count_tokens_in_text (text : Str) : Nat :=
  if text.isEmpty then 0
  else 13 * (pyWords text).length / 10

/-- Lines 83-109: `format_thinking_block`. -/
def format_thinking_block (text : Str) (width : Nat) : Str :=
  let lines := splitNL (pyStrip text)
  let border := List.replicate 40 '─'
  let header :=
    ["\x1b[1m\x1b[38;5;246m┌".data ++ border ++ "┐\x1b[0m".data,
     "\x1b[38;5;246m│\x1b[1m THINKING PROCESS ".data ++ List.replicate 23 ' ' ++
       "\x1b[38;5;246m│\x1b[0m".data]
  let content := lines.flatMap (fun line =>
    if !(pyStrip line).isEmpty then
      (textwrapWrap (width - 4) line).map (fun wl =>
        let padding := List.replicate (width - 4 - wl.length) ' '
        "\x1b[38;5;246m│\x1b[0m \x1b[38;5;246m".data ++ wl ++ padding ++
          "\x1b[0m \x1b[38;5;246m│\x1b[0m".data)
    else ["\x1b[38;5;246m│".data ++ List.replicate (width - 2) ' ' ++ "│\x1b[0m".data])
  joinSep ['\n'] (header ++ content ++ ["\x1b[38;5;246m└".data ++ border ++ "┘\x1b[0m".data])

/-- Lines 130-143: one left-to-right scan implementing both
`re.findall(r"<think>(.*?)</think>", text, re.DOTALL)` (first component)
and `re.sub` of the same pattern by the empty string (second component).
The non-greedy pattern pairs each opening tag with the nearest following
closing tag; an opening tag with no closing tag matches nothing.  Fuel is
bounded by the text length (each step consumes at least the two tags). -/
def thinkScanGo : Nat → Str → List Str × Str
  | 0, s => ([], s)
  | fuel + 1, s =>
    match findSub "<think>".data s with
    | none => ([], s)
    | some i =>
      let after := s.drop (i + 7)
      match findSub "</think>".data after with
      | none => ([], s)
      | some j =>
        let block := after.take j
        let rest := after.drop (j + 8)
        let br := thinkScanGo fuel rest
        (block :: br.1, s.take i ++ br.2)

/-- Extraction and removal of thinking blocks (lines 130-143). -/
def thinkScan (s : Str) : List Str × Str := thinkScanGo s.length s

/-- Count of leading newline characters. -/
def nlRunLen : Str → Nat
  | [] => 0
  | c :: rest => if c = '\n' then 1 + nlRunLen rest else 0

/-- Line 161 (and 177): `re.sub(r"\n{3,}", "\n\n", text)` — every maximal
run of three or more newlines becomes exactly two. -/
def collapseNLGo : Nat → Str → Str
  | 0, s => s
  | _ + 1, [] => []
  | fuel + 1, c :: rest =>
    if c = '\n' then
      let k := 1 + nlRunLen rest
      (if 3 ≤ k then ['\n', '\n'] else List.replicate k '\n') ++
        collapseNLGo fuel ((c :: rest).drop k)
    else c :: collapseNLGo fuel rest

/-- Newline-run collapsing with fuel set to the text length. -/
def collapseNL (s : Str) : Str := collapseNLGo s.length s

/-- Line 147: the fixed list of continuation indicators. -/
def truncation_indicators : List Str :=
  ["...".data, "…".data, "to be continued".data, "cont".data, "continues".data]

/-- Lines 148-152: the truncation heuristic.  `tokens` is the optional
token ceiling; Python `len(text) >= tokens - 20` is integer arithmetic. -/
def isTruncated (text : Str) (tokens : Option Int) : Bool :=
  truncation_indicators.any (fun ind => List.isSuffixOf ind (pyRStrip text)) ||
  (match tokens with
   | some tk => decide ((text.length : Int) ≥ tk - 20)
   | none => false)

/-- Line 155: the truncation note, in color and plain variants. -/
def truncNote (use_color : Bool) : Str :=
  if use_color then "\n\n\x1b[33m[Note: Response may be truncated]\x1b[0m".data
  else "\n\n[Note: Response may be truncated]".data

/-- Lines 148-155: flag-and-append step of the truncation detector. -/
def truncStep (tokens : Option Int) (use_color : Bool) (text : Str) : Str :=
  if isTruncated text tokens then text ++ truncNote use_color else text

/-- Optional `timings` record of the server payload (floats in the JSON;
modelled as exact rationals, see the module comment).  A missing key
defaults to 0 through `Option.getD`, matching `timings.get(key, 0)`. -/
structure Timings where
  prompt_ms : Option ℚ
  predicted_ms : Option ℚ

/-- The server payload fields consumed by the accountant (lines 189-212).
`some` models a truthy (non-empty) Python dict, `none` models `None`. -/
structure Payload where
  tokens_evaluated : Option Int
  tokens_predicted : Option Int
  timings : Option Timings

/-- Python `int()` applied to a non-negative-or-negative rational:
truncation toward zero. -/
def truncQ (q : ℚ) : Int := if q < 0 then -((-q).floor) else q.floor

/-- Round to nearest integer, ties to even (the rounding of Python float
formatting, applied here to the exact rational value). -/
def roundHalfEven (q : ℚ) : Int :=
  let fl := q.floor
  let fr := q - fl
  if fr < 1/2 then fl
  else if 1/2 < fr then fl + 1
  else if fl % 2 = 0 then fl else fl + 1

/-- Decimal digits of a natural number. -/
def natToStr (n : Nat) : Str := Nat.toDigits 10 n

/-- Decimal rendering of an integer. -/
def intToStr (n : Int) : Str :=
  if n < 0 then '-' :: natToStr n.natAbs else natToStr n.natAbs

/-- Model of the Python format `{0:.2f}` on an exact rational. -/
def fmt2 (q : ℚ) : Str :=
  let s := roundHalfEven (q * 100)
  let a := s.natAbs
  (if s < 0 then ['-'] else []) ++ natToStr (a / 100) ++
    '.' :: (if a % 100 < 10 then '0' :: natToStr (a % 100) else natToStr (a % 100))

/-- The token/timing numbers assembled by lines 180-218. -/
structure TokenCounts where
  prompt_tokens : Int
  thinking_tokens : Int
  answer_tokens : Int
  total_tokens : Int
  generation_time : ℚ
  tokens_per_second : ℚ

/-- The message of the `AttributeError` raised by `None.get(...)`. -/
def pyNoneGetError : String :=
  "\x27NoneType\x27 object has no attribute \x27get\x27"

/-- Lines 180-218: the two accounting paths.  With a (truthy) payload the
counts come from the server and the thinking/answer split uses the
character-length ratio; with `None` the code of lines 214-218 runs
`full_response.get("prompt", "")` on `None`, raising `AttributeError`
before any estimate is produced (the remaining lines of that branch are
translated after the raising step and are unreachable). -/
def countsCompute (full_response : Option Payload) (thinking_blocks : List Str)
    (show_thinking : Bool) (answer_content : Str) : Except String TokenCounts :=
  match full_response with
  | some fr =>
    let prompt_tokens := fr.tokens_evaluated.getD 0
    let completion_tokens := fr.tokens_predicted.getD 0
    let ta : Int × Int :=
      if !thinking_blocks.isEmpty && show_thinking then
        let thinking_text := joinSep ['\n'] thinking_blocks
        let ratio : ℚ := (thinking_text.length : ℚ) /
          ((thinking_text.length : ℚ) + (answer_content.length : ℚ) + 1)
        let tt := truncQ ((completion_tokens : ℚ) * ratio)
        (tt, completion_tokens - tt)
      else (0, completion_tokens)
    let total_tokens := prompt_tokens + completion_tokens
    let gt : ℚ × ℚ :=
      match fr.timings with
      | some tm =>
        let g : ℚ := tm.predicted_ms.getD 0 / 1000
        (g, if 0 < g then (completion_tokens : ℚ) / g else 0)
      | none => (0, 0)
    .ok ⟨prompt_tokens, ta.1, ta.2, total_tokens, gt.1, gt.2⟩
  | none => do
    let ptext : Str ← Except.error pyNoneGetError
    let prompt_tokens : Int := count_tokens_in_text ptext
    let thinking_tokens : Int :=
      if !thinking_blocks.isEmpty then
        count_tokens_in_text (joinSep ['\n'] thinking_blocks)
      else 0
    let answer_tokens : Int := count_tokens_in_text answer_content
    Except.ok ⟨prompt_tokens, thinking_tokens, answer_tokens,
      prompt_tokens + thinking_tokens + answer_tokens, 0, 0⟩

/-- Lines 220-243: render the usage report. -/
def countsRender (use_color : Bool) (thinking_blocks : List Str)
    (show_thinking : Bool) (c : TokenCounts) : Str :=
  if use_color then
    "\n\n\x1b[36m══════ Token Counts ══════\x1b[0m\n".data ++
    "Prompt tokens: \x1b[1m".data ++ intToStr c.prompt_tokens ++ "\x1b[0m\n".data ++
    (if !thinking_blocks.isEmpty && show_thinking then
      "Thinking tokens: \x1b[1m".data ++ intToStr c.thinking_tokens ++ "\x1b[0m\n".data
     else []) ++
    "Answer tokens: \x1b[1m".data ++ intToStr c.answer_tokens ++ "\x1b[0m\n".data ++
    "Total tokens: \x1b[1m".data ++ intToStr c.total_tokens ++ "\x1b[0m\n".data ++
    (if 0 < c.generation_time then
      "Generation time: \x1b[1m".data ++ fmt2 c.generation_time ++
        "\x1b[0m seconds\n".data ++
      "Tokens per second: \x1b[1m".data ++ fmt2 c.tokens_per_second ++ "\x1b[0m\n".data
     else [])
  else
    "\n\n══════ Token Counts ══════\n".data ++
    "Prompt tokens: ".data ++ intToStr c.prompt_tokens ++ "\n".data ++
    (if !thinking_blocks.isEmpty && show_thinking then
      "Thinking tokens: ".data ++ intToStr c.thinking_tokens ++ "\n".data
     else []) ++
    "Answer tokens: ".data ++ intToStr c.answer_tokens ++ "\n".data ++
    "Total tokens: ".data ++ intToStr c.total_tokens ++ "\n".data ++
    (if 0 < c.generation_time then
      "Generation time: ".data ++ fmt2 c.generation_time ++ " seconds\n".data ++
      "Tokens per second: ".data ++ fmt2 c.tokens_per_second ++ "\n".data
     else [])

/-- Line 170: the block text searched for while building `clean_text`. -/
def formattedBlockOf (use_color : Bool) (width : Nat) (block : Str) : Str :=
  if use_color then format_thinking_block block width
  else "\n[Thinking Process]\n".data ++ block ++ "\n".data

/-- Lines 166-177: `clean_text` — remove the rendered thinking panels when
they were shown, then collapse newline runs. -/
def cleanTextFor (t : Str) (blocks : List Str) (show_thinking use_color : Bool)
    (width : Nat) : Str :=
  let ct := blocks.foldl (fun acc block =>
    if show_thinking then pyReplace (formattedBlockOf use_color width block) [] acc
    else acc) t
  collapseNL ct

/-- Line 127: removal of the chat-template markers. -/
def preText (text : Str) : Str :=
  pyReplace "<|im_end|>".data [] (pyReplace "<|im_start|>".data [] text)

/-- The thinking blocks extracted at line 131 (after marker removal). -/
def blocksOf (text : Str) : List Str := (thinkScan (preText text)).1

/-- Lines 127-161 of `format_response`: marker removal, thinking-block
display or removal, truncation note, leftover-tag cleanup and newline
collapsing — everything before the token-count section. -/
def mainFormatted (text : Str) (width : Nat) (show_thinking use_color : Bool)
    (tokens : Option Int) : Str :=
  let t1 := preText text
  let br := thinkScan t1
  let t2 :=
    if !br.1.isEmpty && show_thinking then
      br.1.foldl (fun acc block =>
        pyReplace ("<think>".data ++ block ++ "</think>".data)
          (if use_color then format_thinking_block block width else block) acc) t1
    else br.2
  let t3 := truncStep tokens use_color t2
  let t4 := pyReplace "</think>".data [] (pyReplace "<think>".data [] t3)
  collapseNL t4

/-- Lines 164-244: the whole token-count section of `format_response`,
from `clean_text` to the rendered report; the only raising step is the
`None` dereference of line 215, and any error escapes as `.error`. -/
def countsFor (text : Str) (width : Nat) (show_thinking use_color : Bool)
    (tokens : Option Int) (full_response : Option Payload) : Except String Str :=
  let t := mainFormatted text width show_thinking use_color tokens
  let blocks := blocksOf text
  let answer_content := pyStrip (cleanTextFor t blocks show_thinking use_color width)
  match countsCompute full_response blocks show_thinking answer_content with
  | .error e => .error e
  | .ok c => .ok (countsRender use_color blocks show_thinking c)

/-- Lines 245-250: the degraded advisory note appended when the token
counting raised. -/
def failNote (use_color : Bool) (e : String) : Str :=
  if use_color then
    "\n\n\x1b[33m[Note: Token counting failed: ".data ++ e.data ++ "]\x1b[0m".data
  else "\n\n[Note: Token counting failed: ".data ++ e.data ++ "]".data

/-- Lines 123-252: `format_response`. -/
def format_response (text : Str) (width : Nat) (show_thinking use_color : Bool)
    (tokens : Option Int) (show_counts : Bool) (full_response : Option Payload) : Str :=
  let m := mainFormatted text width show_thinking use_color tokens
  if show_counts then
    match countsFor text width show_thinking use_color tokens full_response with
    | .ok s => m ++ s
    | .error e => m ++ failNote use_color e
  else m

-- ### Paragraph-machinery lemmas ------------------------------------------

theorem isEmpty_eq_false_of_ne {α : Type} {l : List α} (h : l ≠ []) :
    l.isEmpty = false := by
  cases l with
  | nil => exact absurd rfl h
  | cons a l => rfl

theorem splitNL_ne_nil (s : Str) : splitNL s ≠ [] := by
  induction s with
  | nil => simp [splitNL]
  | cons c rest ih =>
    simp only [splitNL]
    by_cases h : c = '\n'
    · simp [h]
    · simp only [h, if_false]
      cases hs : splitNL rest <;> simp

theorem joinSep_splitNL (s : Str) : joinSep ['\n'] (splitNL s) = s := by
  induction s with
  | nil => rfl
  | cons c rest ih =>
    simp only [splitNL]
    by_cases h : c = '\n'
    · subst h
      simp only [if_pos rfl]
      cases hs : splitNL rest with
      | nil => exact absurd hs (splitNL_ne_nil rest)
      | cons p ps =>
        rw [hs] at ih
        simp [joinSep, ← ih]
    · simp only [h, if_false]
      cases hs : splitNL rest with
      | nil => exact absurd hs (splitNL_ne_nil rest)
      | cons p ps =>
        rw [hs] at ih
        cases ps with
        | nil => simpa [joinSep] using congrArg (c :: ·) ih
        | cons q qs => simpa [joinSep] using congrArg (c :: ·) ih

theorem mem_splitNL_no_nl {s l : Str} (h : l ∈ splitNL s) : '\n' ∉ l := by
  induction s generalizing l with
  | nil =>
    simp only [splitNL, List.mem_singleton] at h
    subst h; simp
  | cons c rest ih =>
    simp only [splitNL] at h
    by_cases hc : c = '\n'
    · subst hc
      rw [if_pos rfl] at h
      rcases List.mem_cons.mp h with h | h
      · subst h; simp
      · exact ih h
    · simp only [hc, if_false] at h
      cases hs : splitNL rest with
      | nil => exact absurd hs (splitNL_ne_nil rest)
      | cons p ps =>
        rw [hs] at h
        simp only [List.mem_cons] at h
        rcases h with h | h
        · subst h
          intro hmem
          rcases List.mem_cons.mp hmem with h | h
          · exact hc h.symm
          · exact ih (hs ▸ List.mem_cons_self p ps) h
        · exact ih (hs ▸ List.mem_cons.mpr (Or.inr h))

theorem splitNL_no_nl {s : Str} (h : '\n' ∉ s) : splitNL s = [s] := by
  induction s with
  | nil => rfl
  | cons c rest ih =>
    have hc : ¬ c = '\n' := fun hh => h (hh ▸ List.mem_cons_self c rest)
    have hr : '\n' ∉ rest := fun hh => h (List.mem_cons.mpr (Or.inr hh))
    simp only [splitNL, hc, if_false, ih hr]

theorem splitNL_append_single {x t : Str} (h : '\n' ∉ x) :
    splitNL (x ++ '\n' :: t) = x :: splitNL t := by
  induction x with
  | nil => simp [splitNL]
  | cons c x' ih =>
    have hc : ¬ c = '\n' := fun hh => h (hh ▸ List.mem_cons_self c x')
    have hx : '\n' ∉ x' := fun hh => h (List.mem_cons.mpr (Or.inr hh))
    rw [List.cons_append]
    simp only [splitNL, hc, if_false]
    rw [ih hx]

theorem splitNL_joinNL_append {L : List Str} {t : Str} (hL : L ≠ [])
    (h : ∀ l ∈ L, '\n' ∉ l) :
    splitNL (joinSep ['\n'] L ++ '\n' :: t) = L ++ splitNL t := by
  induction L with
  | nil => exact absurd rfl hL
  | cons x L' ih =>
    cases L' with
    | nil =>
      simp only [joinSep]
      rw [splitNL_append_single (h x (List.mem_cons_self x []))]
      rfl
    | cons y rest =>
      have hx : '\n' ∉ x := h x (List.mem_cons_self x (y :: rest))
      have hrest : ∀ l ∈ y :: rest, '\n' ∉ l :=
        fun l hl => h l (List.mem_cons.mpr (Or.inr hl))
      simp only [joinSep]
      have : (x ++ ['\n'] ++ joinSep ['\n'] (y :: rest)) ++ '\n' :: t =
          x ++ '\n' :: (joinSep ['\n'] (y :: rest) ++ '\n' :: t) := by
        simp
      rw [this, splitNL_append_single hx, ih (by simp) hrest]
      rfl

theorem splitNL_joinNL {L : List Str} (hL : L ≠ []) (h : ∀ l ∈ L, '\n' ∉ l) :
    splitNL (joinSep ['\n'] L) = L := by
  induction L with
  | nil => exact absurd rfl hL
  | cons x L' ih =>
    cases L' with
    | nil => exact splitNL_no_nl (h x (List.mem_cons_self x []))
    | cons y rest =>
      have hx : '\n' ∉ x := h x (List.mem_cons_self x (y :: rest))
      have hrest : ∀ l ∈ y :: rest, '\n' ∉ l :=
        fun l hl => h l (List.mem_cons.mpr (Or.inr hl))
      simp only [joinSep]
      have : x ++ ['\n'] ++ joinSep ['\n'] (y :: rest) =
          x ++ '\n' :: joinSep ['\n'] (y :: rest) := by simp
      rw [this, splitNL_append_single hx, ih (by simp) hrest]

/-- A well-formed paragraph: every one of its lines has non-blank strip.
Every paragraph produced by `paragraphsOf`, and the advisory note, are
well formed; such paragraphs survive a blank-line join/split round trip. -/
def GoodPara (p : Str) : Prop :=
  ∀ l ∈ splitNL p, (pyStrip l).isEmpty = false

instance (p : Str) : Decidable (GoodPara p) := by
  unfold GoodPara; infer_instance

theorem collectParas_append_run {L : List Str}
    (hL : ∀ l ∈ L, (pyStrip l).isEmpty = false) (ls : List Str) (cur : List Str) :
    collectParas (L ++ ls) cur = collectParas ls (L.reverse ++ cur) := by
  induction L generalizing cur with
  | nil => simp
  | cons l L' ih =>
    have hl : (pyStrip l).isEmpty = false := hL l (List.mem_cons_self l L')
    have hL' : ∀ x ∈ L', (pyStrip x).isEmpty = false :=
      fun x hx => hL x (List.mem_cons.mpr (Or.inr hx))
    rw [List.cons_append]
    show collectParas (l :: (L' ++ ls)) cur = _
    rw [collectParas, hl]
    simp only [Bool.false_eq_true, if_false]
    rw [ih hL' (l :: cur)]
    simp

theorem collectParas_flush (ls : List Str) (cur : List Str) (h : cur ≠ []) :
    collectParas ([] :: ls) cur =
      joinSep ['\n'] cur.reverse :: collectParas ls [] := by
  rw [collectParas]
  have h1 : (pyStrip ([] : Str)).isEmpty = true := rfl
  rw [h1, if_pos rfl, isEmpty_eq_false_of_ne h]
  simp

theorem collectParas_nil_flush (cur : List Str) (h : cur ≠ []) :
    collectParas [] cur = [joinSep ['\n'] cur.reverse] := by
  rw [collectParas, isEmpty_eq_false_of_ne h]
  simp

theorem paragraphsOf_joinSep (ps : List Str) (h : ∀ p ∈ ps, GoodPara p) :
    paragraphsOf (joinSep ('\n' :: '\n' :: []) ps) = ps := by
  induction ps with
  | nil => rfl
  | cons p rest ih =>
    have hp : GoodPara p := h p (List.mem_cons_self p rest)
    have hpnn : ∀ l ∈ splitNL p, '\n' ∉ l := fun l hl => mem_splitNL_no_nl hl
    have hpne : splitNL p ≠ [] := splitNL_ne_nil p
    cases rest with
    | nil =>
      show collectParas (splitNL (joinSep ('\n' :: '\n' :: []) [p])) [] = [p]
      have : joinSep ('\n' :: '\n' :: []) [p] = p := rfl
      rw [this]
      have h2 : collectParas (splitNL p ++ []) [] =
          collectParas [] ((splitNL p).reverse ++ []) :=
        collectParas_append_run hp [] []
      rw [List.append_nil] at h2
      rw [h2, List.append_nil,
        collectParas_nil_flush _ (by simpa using hpne),
        List.reverse_reverse, joinSep_splitNL]
    | cons q rest' =>
      have hrest : ∀ x ∈ q :: rest', GoodPara x :=
        fun x hx => h x (List.mem_cons.mpr (Or.inr hx))
      show paragraphsOf (joinSep ('\n' :: '\n' :: []) (p :: q :: rest')) = _
      have hj : joinSep ('\n' :: '\n' :: []) (p :: q :: rest') =
          joinSep ['\n'] (splitNL p) ++
            '\n' :: ('\n' :: joinSep ('\n' :: '\n' :: []) (q :: rest')) := by
        rw [joinSep_splitNL]
        show p ++ ('\n' :: '\n' :: []) ++ _ = _
        simp
      rw [paragraphsOf, hj,
        splitNL_joinNL_append hpne hpnn]
      have hsp : splitNL ('\n' :: joinSep ('\n' :: '\n' :: []) (q :: rest')) =
          [] :: splitNL (joinSep ('\n' :: '\n' :: []) (q :: rest')) := by
        rw [splitNL]; simp
      rw [hsp, collectParas_append_run hp _ [],
        List.append_nil,
        collectParas_flush _ _ (by simpa using hpne),
        List.reverse_reverse, joinSep_splitNL]
      exact congrArg (p :: ·) (ih hrest)

theorem collectParas_good (ls : List Str) (cur : List Str)
    (hls : ∀ l ∈ ls, '\n' ∉ l)
    (hcur : ∀ l ∈ cur, (pyStrip l).isEmpty = false ∧ '\n' ∉ l) :
    ∀ p ∈ collectParas ls cur, GoodPara p := by
  induction ls generalizing cur with
  | nil =>
    intro p hp
    rw [collectParas] at hp
    cases hc : cur with
    | nil => subst hc; simp at hp
    | cons x xs =>
      subst hc
      rw [isEmpty_eq_false_of_ne (by simp)] at hp
      simp only [Bool.false_eq_true, if_false, List.mem_singleton] at hp
      subst hp
      intro l hl
      rw [splitNL_joinNL (by simp) (fun l hl => ((hcur l (by
        simpa using List.mem_reverse.mp hl)).2))] at hl
      exact (hcur l (by simpa using List.mem_reverse.mp hl)).1
  | cons a ls' ih =>
    intro p hp
    have ha : '\n' ∉ a := hls a (List.mem_cons_self a ls')
    have hls' : ∀ l ∈ ls', '\n' ∉ l :=
      fun l hl => hls l (List.mem_cons.mpr (Or.inr hl))
    rw [collectParas] at hp
    by_cases hblank : (pyStrip a).isEmpty = true
    · rw [hblank, if_pos rfl] at hp
      cases hc : cur with
      | nil =>
        subst hc
        simp only [List.isEmpty_nil, if_pos rfl] at hp
        exact ih [] hls' (by simp) p hp
      | cons x xs =>
        subst hc
        rw [isEmpty_eq_false_of_ne (by simp)] at hp
        simp only [Bool.false_eq_true, if_false, List.mem_cons] at hp
        rcases hp with hp | hp
        · subst hp
          intro l hl
          rw [splitNL_joinNL (by simp) (fun l hl => ((hcur l (by
            simpa using List.mem_reverse.mp hl)).2))] at hl
          exact (hcur l (by simpa using List.mem_reverse.mp hl)).1
        · exact ih [] hls' (by simp) p hp
    · rw [Bool.not_eq_true] at hblank
      rw [hblank] at hp
      simp only [Bool.false_eq_true, if_false] at hp
      refine ih (a :: cur) hls' ?_ p hp
      intro l hl
      rcases List.mem_cons.mp hl with hl | hl
      · subst hl; exact ⟨hblank, ha⟩
      · exact hcur l hl

theorem paragraphsOf_good (text : Str) : ∀ p ∈ paragraphsOf text, GoodPara p :=
  collectParas_good (splitNL text) []
    (fun l hl => mem_splitNL_no_nl hl) (by simp)

theorem dedupParagraphs_sublist (minLen : Nat) (seen ps : List Str) :
    List.Sublist (dedupParagraphs minLen seen ps) ps := by
  induction ps generalizing seen with
  | nil => simp [dedupParagraphs]
  | cons p ps' ih =>
    rw [dedupParagraphs]
    by_cases h1 : minLen ≤ (pyStrip p).length
    · rw [if_pos h1]
      by_cases h2 : p ∈ seen
      · rw [if_pos h2]
        exact List.Sublist.cons p (ih seen)
      · rw [if_neg h2]
        exact List.Sublist.cons₂ p (ih (p :: seen))
    · rw [if_neg h1]
      exact List.Sublist.cons₂ p (ih seen)

theorem filter_short_sublist_dedup (minLen : Nat) (seen ps : List Str) :
    List.Sublist (ps.filter (fun p => decide ((pyStrip p).length < minLen)))
      (dedupParagraphs minLen seen ps) := by
  induction ps generalizing seen with
  | nil => simp [dedupParagraphs]
  | cons p ps' ih =>
    rw [dedupParagraphs, List.filter]
    by_cases h1 : minLen ≤ (pyStrip p).length
    · have hshort : decide ((pyStrip p).length < minLen) = false := by
        simp [Nat.not_lt.mpr h1]
      rw [hshort, if_pos h1]
      by_cases h2 : p ∈ seen
      · rw [if_pos h2]; exact ih seen
      · rw [if_neg h2]
        exact List.Sublist.cons p (ih (p :: seen))
    · have hshort : decide ((pyStrip p).length < minLen) = true := by
        simp [Nat.lt_of_not_le h1]
      rw [hshort, if_neg h1]
      exact List.Sublist.cons₂ p (ih seen)

theorem dedupParagraphs_nodup (minLen : Nat) (ps : List Str) :
    ∀ seen, ps.Nodup → (∀ p ∈ ps, p ∉ seen) →
      dedupParagraphs minLen seen ps = ps := by
  induction ps with
  | nil => intro seen _ _; rfl
  | cons p ps' ih =>
    intro seen hnd hseen
    have hnd' : ps'.Nodup := (List.nodup_cons.mp hnd).2
    have hpn : p ∉ ps' := (List.nodup_cons.mp hnd).1
    rw [dedupParagraphs]
    by_cases h1 : minLen ≤ (pyStrip p).length
    · rw [if_pos h1, if_neg (hseen p (List.mem_cons_self p ps'))]
      refine congrArg (p :: ·) (ih (p :: seen) hnd' ?_)
      intro q hq
      intro hmem
      rcases List.mem_cons.mp hmem with hh | hh
      · exact hpn (hh ▸ hq)
      · exact hseen q (List.mem_cons.mpr (Or.inr hq)) hh
    · rw [if_neg h1]
      exact congrArg (p :: ·) (ih seen hnd'
        (fun q hq => hseen q (List.mem_cons.mpr (Or.inr hq))))

-- ### Claim theorems -------------------------------------------------------

/-- C5: formatting `<think>reasoning here</think>Final answer.` with
show-thinking disabled, no token-count display and no token ceiling yields
exactly `Final answer.` — the thinking region including both tags is
removed and nothing is substituted. -/
theorem C5_hide_thinking_exact :
    format_response "<think>reasoning here</think>Final answer.".data 80 false true
      none false none = "Final answer.".data := by rfl

/-- C2 counterexample: deduplicating the scenario text with minimum
paragraph length 5 does NOT yield the bare deduplicated text claimed —
because 2 paragraphs kept out of 3 satisfies `2 < 3 * 0.7`, the code
appends the repetitive-content advisory note. -/
theorem C2_counterexample :
    detectAndRemoveRepetitionMin 5
        "A paragraph.\n\nA paragraph.\n\nB paragraph.".data ≠
      "A paragraph.\n\nB paragraph.".data := by decide

/-- C2 amended: deduplicating the scenario text with minimum length 5
keeps the first `A paragraph.` and `B paragraph.` in order, and appends
the dim-colored advisory note as a final paragraph, since the kept count
2 is strictly less than `3 * 0.7 = 2.1`. -/
theorem C2_amended_note_appended :
    detectAndRemoveRepetitionMin 5
        "A paragraph.\n\nA paragraph.\n\nB paragraph.".data =
      ("A paragraph.\n\nB paragraph.\n\n\x1b[2m\n(Note: Repetitive content was removed from the response)\x1b[0m").data := by
  rfl

/-- C1: with token counts requested and no server payload (`None`), the
estimation branch of lines 213-218 immediately dereferences `None`
(`full_response.get("prompt", "")`), raising `AttributeError`; the
exception handler appends the degraded note, so the document carries the
failure note instead of the estimated usage report the spec describes. -/
theorem C1_estimation_branch_raises :
    format_response "Hello world.".data 80 false false none true none =
      "Hello world.\n\n[Note: Token counting failed: \x27NoneType\x27 object has no attribute \x27get\x27]".data := by
  rfl

/-- C10: calling the prompt-echo trimmer with the empty prompt always
raises (`"" in text` holds for every text, and `text.split("")` raises
`ValueError`), rather than returning the text unchanged. -/
theorem C10_empty_prompt_raises (text : Str) :
    trim_prompt_repetition text [] = .error "ValueError: empty separator" := by
  have h : occursIn [] text = true := by
    cases text with
    | nil => rfl
    | cons c rest => simp [occursIn, List.isPrefixOf]
  simp [trim_prompt_repetition, h, pySplit]

/-- C4: whenever the token-accounting computation errors, `format_response`
neither aborts nor propagates: it returns the otherwise-unchanged formatted
document with the single degraded advisory note appended in place of the
usage report. -/
theorem C4_degraded_note_on_error (text : Str) (width : Nat)
    (show_thinking use_color : Bool) (tokens : Option Int)
    (full_response : Option Payload) (e : String)
    (h : countsFor text width show_thinking use_color tokens full_response =
      .error e) :
    format_response text width show_thinking use_color tokens true full_response =
      mainFormatted text width show_thinking use_color tokens ++
        failNote use_color e := by
  simp [format_response, h]

/-- C4 witness: a concrete run (counts requested, payload `None`) on which
the accounting errors and the degraded note is appended. -/
theorem C4_witness :
    format_response "Hi".data 80 false true none true none =
      mainFormatted "Hi".data 80 false true none ++ failNote true pyNoneGetError :=
  C4_degraded_note_on_error "Hi".data 80 false true none none pyNoneGetError
    (by rfl)

/-- C8: if the right-trimmed text ends with one of the fixed continuation
indicators, the truncation detector appends the truncation note after the
unchanged text; if it does not and either no token ceiling was supplied or
the text length is not within 20 characters of the ceiling, no note is
appended. -/
theorem C8_truncation_behaviour (text : Str) (tokens : Option Int)
    (use_color : Bool) :
    (truncation_indicators.any
        (fun ind => List.isSuffixOf ind (pyRStrip text)) = true →
      truncStep tokens use_color text = text ++ truncNote use_color) ∧
    (truncation_indicators.any
        (fun ind => List.isSuffixOf ind (pyRStrip text)) = false →
      (tokens = none ∨ ∃ tk, tokens = some tk ∧ (text.length : Int) < tk - 20) →
      truncStep tokens use_color text = text) := by
  constructor
  · intro h
    have ht : isTruncated text tokens = true := by
      rw [isTruncated.eq_def, h, Bool.true_or]
    rw [truncStep, ht, if_pos rfl]
  · intro h htk
    have ht : isTruncated text tokens = false := by
      rw [isTruncated.eq_def, h, Bool.false_or]
      rcases htk with h1 | ⟨tk, h2, h3⟩
      · rw [h1]
      · rw [h2]
        exact decide_eq_false (not_le.mpr h3)
    rw [truncStep, ht]
    simp

/-- C8 witness: a text ending in `...` gets the truncation note appended. -/
theorem C8_witness :
    truncStep none true "Loading...".data = "Loading...".data ++ truncNote true :=
  (C8_truncation_behaviour "Loading...".data none true).1 (by rfl)

theorem wrapStep_passthrough (width : Nat) (cb : Bool) (line : Str)
    (h : cb = true ∨ "```".data.isPrefixOf line = true ∨
      "│ ".data.isPrefixOf line = true) :
    (wrapStep width cb line).2 = [line] := by
  rw [wrapStep]
  by_cases h1 : "```".data.isPrefixOf line
  · simp [h1]
  · rcases h with h | h | h
    · subst h; simp [h1]
    · exact absurd h h1
    · simp [h1, h]

theorem wrapTrace_passthrough (width : Nat) (ls : List Str) :
    ∀ (cb0 : Bool) (line : Str) (cb : Bool) (out : List Str),
      (line, cb, out) ∈ wrapTrace width cb0 ls →
      (cb = true ∨ "```".data.isPrefixOf line = true ∨
        "│ ".data.isPrefixOf line = true) →
      out = [line] := by
  induction ls with
  | nil =>
    intro cb0 line cb out hmem _
    simp [wrapTrace] at hmem
  | cons l ls' ih =>
    intro cb0 line cb out hmem hcond
    rw [wrapTrace] at hmem
    rcases List.mem_cons.mp hmem with hh | hh
    · simp only [Prod.mk.injEq] at hh
      obtain ⟨h1, h2, h3⟩ := hh
      subst h1; subst h2; subst h3
      exact wrapStep_passthrough width cb line hcond
    · exact ih _ line cb out hh hcond

/-- C3: for every text and width at least 1, any line that the wrapper
processes while inside a detected code fence — as well as any fence-marker
line and any line carrying the reserved border prefix emitted by the code
formatter — is emitted byte-for-byte unchanged, never word-wrapped. -/
theorem C3_fenced_lines_verbatim (width : Nat) (_hw : 1 ≤ width) (text : Str)
    (line : Str) (cb : Bool) (out : List Str)
    (hmem : (line, cb, out) ∈ wrapTrace width false (splitNL text))
    (hfence : cb = true ∨ "```".data.isPrefixOf line = true ∨
      "│ ".data.isPrefixOf line = true) :
    out = [line] :=
  wrapTrace_passthrough width (splitNL text) false line cb out hmem hfence

/-- C3 witness: inside the fence of a concrete text, the code line is
emitted exactly as itself at width 1. -/
theorem C3_witness : (["code line here".data] : List Str) = ["code line here".data] :=
  C3_fenced_lines_verbatim 1 (by decide) "```\ncode line here\n```".data
    "code line here".data true ["code line here".data] (by decide) (Or.inl rfl)

/-- C6: the deduplicator never removes a paragraph whose trimmed length is
strictly below `MIN_PARAGRAPH_LENGTH`: the short paragraphs of the input
survive, in order, as paragraphs of the output text. -/
theorem C6_short_paragraphs_kept (text : Str) :
    List.Sublist
      ((paragraphsOf text).filter
        (fun p => decide ((pyStrip p).length < MIN_PARAGRAPH_LENGTH)))
      (paragraphsOf (detect_and_remove_repetition text)) := by
  rw [detect_and_remove_repetition]
  simp only [detectAndRemoveRepetitionMin]
  by_cases h1 : text.length < MIN_PARAGRAPH_LENGTH * 2
  · rw [if_pos h1]; exact List.filter_sublist _
  · rw [if_neg h1]
    by_cases h2 : (paragraphsOf text).length ≤ 1
    · rw [if_pos h2]; exact List.filter_sublist _
    · rw [if_neg h2]
      have hgood : ∀ p ∈ dedupParagraphs MIN_PARAGRAPH_LENGTH []
          (paragraphsOf text), GoodPara p := fun p hp =>
        paragraphsOf_good text p ((dedupParagraphs_sublist _ _ _).subset hp)
      have hnoteGood : GoodPara (color_text
          ("\n(Note: Repetitive content was removed from the response)".data)
          "dim") := by decide
      by_cases h3 : 10 * (dedupParagraphs MIN_PARAGRAPH_LENGTH []
          (paragraphsOf text)).length < 7 * (paragraphsOf text).length
      · rw [if_pos h3]
        rw [paragraphsOf_joinSep _ (by
          intro p hp
          rcases List.mem_append.mp hp with hp | hp
          · exact hgood p hp
          · rw [List.mem_singleton.mp hp]; exact hnoteGood)]
        exact (filter_short_sublist_dedup _ [] (paragraphsOf text)).trans
          (List.sublist_append_left _ _)
      · rw [if_neg h3]
        rw [paragraphsOf_joinSep _ hgood]
        exact filter_short_sublist_dedup _ [] (paragraphsOf text)

/-- C7 counterexample: a text with no duplicate paragraphs but a trailing
newline is NOT returned unchanged — rejoining the paragraphs with exactly
one blank line drops the trailing newline. -/
theorem C7_counterexample :
    (paragraphsOf "aaaaaaaaaaaaaaaaaaaa\n\nbbbbbbbbbbbbbbbbbbbb\n".data).Nodup ∧
      detect_and_remove_repetition
          "aaaaaaaaaaaaaaaaaaaa\n\nbbbbbbbbbbbbbbbbbbbb\n".data ≠
        "aaaaaaaaaaaaaaaaaaaa\n\nbbbbbbbbbbbbbbbbbbbb\n".data := by
  constructor
  · decide
  · decide

/-- C7 amended: on a text whose paragraph list has no duplicates the
deduplicator removes nothing and appends no note: it returns the text
itself when the text is short or has at most one paragraph, and otherwise
returns the unchanged paragraph list rejoined with exactly one blank line
(which normalizes blank-line runs and drops leading/trailing blank
lines). -/
theorem C7_nodup_keeps_paragraphs (text : Str)
    (h : (paragraphsOf text).Nodup) :
    detect_and_remove_repetition text =
      if text.length < MIN_PARAGRAPH_LENGTH * 2 ∨ (paragraphsOf text).length ≤ 1
      then text
      else joinSep ('\n' :: '\n' :: []) (paragraphsOf text) := by
  rw [detect_and_remove_repetition]
  simp only [detectAndRemoveRepetitionMin]
  by_cases h1 : text.length < MIN_PARAGRAPH_LENGTH * 2
  · rw [if_pos h1, if_pos (Or.inl h1)]
  · rw [if_neg h1]
    by_cases h2 : (paragraphsOf text).length ≤ 1
    · rw [if_pos h2, if_pos (Or.inr h2)]
    · rw [if_neg h2]
      rw [dedupParagraphs_nodup MIN_PARAGRAPH_LENGTH (paragraphsOf text) [] h
        (by simp)]
      rw [if_neg (show ¬(10 * (paragraphsOf text).length <
        7 * (paragraphsOf text).length) by omega)]
      rw [if_neg (fun hc => hc.elim h1 h2)]

/-- C7 witness: the amended statement evaluated on the counterexample
text — the paragraphs are kept in order and rejoined with one blank
line. -/
theorem C7_witness :
    detect_and_remove_repetition
        "aaaaaaaaaaaaaaaaaaaa\n\nbbbbbbbbbbbbbbbbbbbb\n".data =
      "aaaaaaaaaaaaaaaaaaaa\n\nbbbbbbbbbbbbbbbbbbbb".data := by
  have h := C7_nodup_keeps_paragraphs
    "aaaaaaaaaaaaaaaaaaaa\n\nbbbbbbbbbbbbbbbbbbbb\n".data (by decide)
  rw [if_neg (by decide)] at h
  rw [h]
  rfl

theorem occursIn_eq_isSome (pat : Str) (s : Str) :
    occursIn pat s = (findSub pat s).isSome := by
  induction s with
  | nil =>
    rw [occursIn, findSub]
    cases hp : pat.isEmpty <;> simp [hp]
  | cons c rest ih =>
    rw [occursIn, findSub]
    by_cases h : pat.isPrefixOf (c :: rest) = true
    · simp [h]
    · simp only [Bool.not_eq_true] at h
      simp [h, ih]

theorem headD_consHead (c : Char) (l : List Str) :
    (consHead c l).headD [] = c :: l.headD [] := by
  cases l <;> rfl

theorem pySplitGo_headD (sep : Str) (hsep : sep ≠ []) :
    ∀ (fuel : Nat) (s : Str) (i : Nat), s.length ≤ fuel →
      findSub sep s = some i →
      (pySplitGo sep fuel s).headD [] = s.take i := by
  intro fuel
  induction fuel with
  | zero =>
    intro s i hle hf
    have hs : s = [] := List.length_eq_zero.mp (Nat.le_zero.mp hle)
    subst hs
    rw [findSub, if_neg (by simp [List.isEmpty_iff, hsep])] at hf
    simp at hf
  | succ fuel ih =>
    intro s i hle hf
    cases s with
    | nil =>
      rw [findSub, if_neg (by simp [List.isEmpty_iff, hsep])] at hf
      simp at hf
    | cons c rest =>
      rw [findSub] at hf
      by_cases hp : sep.isPrefixOf (c :: rest) = true
      · rw [if_pos hp] at hf
        have hi : i = 0 := (Option.some.inj hf).symm
        subst hi
        show (pySplitGo sep (fuel + 1) (c :: rest)).headD [] = []
        rw [show pySplitGo sep (fuel + 1) (c :: rest) =
          [] :: pySplitGo sep fuel ((c :: rest).drop sep.length) by
            rw [pySplitGo]; rw [if_pos hp]]
        rfl
      · rw [if_neg hp] at hf
        cases hfr : findSub sep rest with
        | none => rw [hfr] at hf; simp at hf
        | some j =>
          rw [hfr] at hf
          rw [Option.map_some'] at hf
          have hi : i = j + 1 := (Option.some.inj hf).symm
          subst hi
          rw [show pySplitGo sep (fuel + 1) (c :: rest) =
            consHead c (pySplitGo sep fuel rest) by
              rw [pySplitGo]; rw [if_neg hp]]
          rw [headD_consHead]
          rw [ih rest j (by simpa using hle) hfr]
          rfl

/-- C9 counterexample: for the empty prompt — which occurs verbatim in
every text — the trimmer does not return the (trimmed) text preceding the
first occurrence: it raises instead. -/
theorem C9_counterexample :
    trim_prompt_repetition ['a'] [] ≠ Except.ok (pyStrip (List.take 0 ['a'])) := by
  intro hcontra
  have h1 : trim_prompt_repetition ['a'] [] =
      .error "ValueError: empty separator" := rfl
  rw [h1] at hcontra
  exact Except.noConfusion hcontra

/-- C9 amended: for every text and every NON-EMPTY prompt, if the prompt
occurs in the text the trimmer returns exactly the text preceding the
first occurrence with surrounding whitespace trimmed, and if it does not
occur the text passes through unchanged. -/
theorem C9_trim_amended (text prompt : Str) (hne : prompt ≠ []) :
    (∀ i, findSub prompt text = some i →
      trim_prompt_repetition text prompt =
        .ok (pyStrip (List.take i text))) ∧
    (findSub prompt text = none →
      trim_prompt_repetition text prompt = .ok text) := by
  constructor
  · intro i hi
    have hocc : occursIn prompt text = true := by
      rw [occursIn_eq_isSome, hi]; rfl
    rw [trim_prompt_repetition, if_pos hocc]
    rw [pySplit, if_neg (by simp [List.isEmpty_iff, hne])]
    show Except.ok (pyStrip ((pySplitGo prompt text.length text).headD [])) = _
    rw [pySplitGo_headD prompt hne text.length text i (le_refl _) hi]
  · intro hn
    have hocc : occursIn prompt text = false := by
      rw [occursIn_eq_isSome, hn]; rfl
    rw [trim_prompt_repetition, if_neg (by simp [hocc])]

/-- C9 witness: the prompt `PROMPT` occurs at index 4 of the text, and the
trimmer returns the trimmed prefix before it. -/
theorem C9_witness :
    trim_prompt_repetition "abc PROMPT def".data "PROMPT".data =
      Except.ok (pyStrip (List.take 4 "abc PROMPT def".data)) :=
  (C9_trim_amended "abc PROMPT def".data "PROMPT".data (by decide)).1 4 (by decide)
